import Mathlib

namespace Booking

/-!
Verification of the booking scraper orchestration subsystem
(src/PartA/booking_scraper.py) against its specification.

The source is Python driving a browser; we embed the control flow
shallowly: browser observations (element visibility, card counts,
per-field lookup results, attempt outcomes) become explicit oracle
inputs, dates become integers counting days, and each Python function
becomes a Lean function over those oracles, faithful to the branch
structure of the source.
-/

/-! ## Task Partitioner: get_dates (booking_scraper.py lines 12-25)

Dates are modelled as integers (day numbers). The Python loop
`while current_date <= end_date` with inner `for j in range(1, los+1)`
appending `(current_date, current_date + j)` is embedded directly. -/

def get_dates (start_date end_date : ℤ) (los : ℕ) : List (ℤ × ℤ) :=
  (List.range (end_date + 1 - start_date).toNat).flatMap fun (d : ℕ) =>
    (List.range los).map fun (j : ℕ) =>
      (start_date + (d : ℤ), start_date + (d : ℤ) + ((j : ℤ) + 1))

/-! ## Task Executor retry wrapper: scrape_date_combination_sync_retry
(booking_scraper.py lines 288-298)

One attempt of scrape_date_combination_sync yields a list of records;
the stream of attempt results is an oracle `attempts : ℕ → List α`.
The Python `while True` loop is run with explicit fuel; `none` means
the loop has not terminated within `fuel` attempts. The result carries
the index of the accepted attempt (equal to the number of discarded
attempts) and the accumulated seconds slept (`time.sleep(2)` after
each discarded attempt). -/

def retryFrom {α : Type} (attempts : ℕ → List α) (i pauses : ℕ) :
    ℕ → Option (List α × ℕ × ℕ)
  | 0 => none
  | fuel + 1 =>
    if 100 ≤ (attempts i).length then some (attempts i, i, pauses)
    else retryFrom attempts (i + 1) (pauses + 2) fuel

def scrape_date_combination_sync_retry {α : Type} (attempts : ℕ → List α)
    (fuel : ℕ) : Option (List α × ℕ × ℕ) :=
  retryFrom attempts 0 0 fuel

/-- Strict ordering on date tasks: by check-in day ascending, then by
stay length (checkout minus checkin) ascending. -/
def taskLt (a b : ℤ × ℤ) : Prop :=
  a.1 < b.1 ∨ (a.1 = b.1 ∧ a.2 - a.1 < b.2 - b.1)

/-! ## Incremental Loader: load_hotel_cards (booking_scraper.py lines 92-145)

Each iteration of the Python while loop observes the page; one
iteration's observations form a RoundEnv: whether the load-more button
became visible (possibly after the popup-dismiss re-check), the card
count at that point, whether the click succeeded, and whether the card
count strictly increased within the 10-second wait. The loop counter is
the clicks variable of the source; note the source increments it both
after a successful click (line 125) and again when the 10-second wait
times out (line 140). -/

structure RoundEnv where
  visible : Bool
  count : ℕ
  clickOk : Bool
  increased : Bool

structure LoadOutcome where
  rounds : ℕ
  clicks : ℕ
  success : Bool
deriving DecidableEq

def loadLoop (envs : ℕ → RoundEnv) (minCount maxClicks : ℕ) :
    ℕ → ℕ → ℕ → LoadOutcome
  | 0, i, clicks => ⟨i, clicks, false⟩
  | fuel + 1, i, clicks =>
    if clicks < maxClicks then
      if (envs i).visible = false then
        loadLoop envs minCount maxClicks fuel (i + 1) (clicks + 1)
      else if minCount ≤ (envs i).count then ⟨i + 1, clicks, true⟩
      else if (envs i).clickOk = false then
        loadLoop envs minCount maxClicks fuel (i + 1) (clicks + 1)
      else if (envs i).increased = true then
        loadLoop envs minCount maxClicks fuel (i + 1) (clicks + 1)
      else
        loadLoop envs minCount maxClicks fuel (i + 1) (clicks + 2)
    else ⟨i, clicks, false⟩

/-- load_hotel_cards runs the pagination loop from a zeroed clicks
counter, then performs the final settle (two bottom-scrolls and a pause)
and re-counts the cards; finalCount is the card count observed at that
final re-count, and it is what the caller sees. Fuel maxClicks + 1 is
enough because every non-breaking iteration increments clicks. -/
def load_hotel_cards (envs : ℕ → RoundEnv) (finalCount : ℕ)
    (minCount maxClicks : ℕ) : LoadOutcome × ℕ :=
  (loadLoop envs minCount maxClicks (maxClicks + 1) 0 0, finalCount)

/-- Budget units the clicks counter advances by in one executed round;
none means the round breaks out successfully (count already at target). -/
def roundCost (e : RoundEnv) (minCount : ℕ) : Option ℕ :=
  if e.visible = false then some 1
  else if minCount ≤ e.count then none
  else if e.clickOk = false then some 1
  else if e.increased = true then some 1
  else some 2

/-- A round in which the load-more button is visible, the count is still
short of the target, the click succeeds, but no new cards appear within
the 10-second wait. -/
def stallRound : RoundEnv := ⟨true, 0, true, false⟩

/-! ## Exceptions inside an attempt (booking_scraper.py lines 53-67 and
261-298)

ensure_date_visible clicks Next month until the date checkbox is
visible or max_attempts is reached; click errors inside it are caught
(fallback_click) so it never raises, only warns. The observation
`visible n` is whether the date checkbox is visible after n next-month
clicks.

scrape_date_combination_sync itself has no exception handler: any
exception raised by its page interactions (in particular the
date-selection checkbox click at lines 274/276, which raises when the
date is still not visible after ensure_date_visible gave up) propagates
to the caller. scrape_date_combination_sync_retry wraps the call in a
bare while loop with no try/except, so such an exception propagates out
of the retry wrapper as well. An attempt is therefore an
Except value: error for a raised exception, ok for a returned record
list. -/

def ensureAux (visible : ℕ → Bool) (attempts : ℕ) : ℕ → ℕ
  | 0 => attempts
  | r + 1 =>
    if visible attempts then attempts else ensureAux visible (attempts + 1) r

def ensure_date_visible (visible : ℕ → Bool) (maxAttempts : ℕ) : ℕ :=
  ensureAux visible 0 maxAttempts

def retryFromE {α ε : Type} (attempts : ℕ → Except ε (List α)) (i : ℕ) :
    ℕ → Option (Except ε (List α × ℕ))
  | 0 => none
  | fuel + 1 =>
    match attempts i with
    | .error err => some (.error err)
    | .ok hotels =>
      if 100 ≤ hotels.length then some (.ok (hotels, i))
      else retryFromE attempts (i + 1) fuel

/-! ## Record Extractor: extract_hotel_data (booking_scraper.py lines
147-257)

Per-card page observations form a CardEnv; for each field lookup, none
models either a raised locator/parse exception or a null attribute (the
source maps both to the same fallback). The text-processing helpers
embed the Python operations used on the looked-up text: str.strip,
str.split, int(), re.sub removing non-digits, and the regex patterns
for decimal numbers. Python float values are modelled exactly as
rationals. -/

def pySplitWs (s : String) : List String :=
  (s.split Char.isWhitespace).filter (fun t => ¬ t.isEmpty)

/-- int(token) applied to the first whitespace token, as used on star
ratings; none when there is no token or it is not an integer literal. -/
def parseStarRating (s : String) : Option ℤ :=
  match pySplitWs s with
  | [] => none
  | t :: _ => t.toInt?

def digitsToNat (ds : List Char) : ℕ :=
  ds.foldl (fun acc c => acc * 10 + (c.toNat - 48)) 0

/-- int() of re.sub removing every non-digit character: int raises on an
all-non-digit string, and the caller's handler turns that into none;
otherwise it reads the remaining digit string in base 10. -/
def parseReviewAmount (s : String) : Option ℕ :=
  let ds := s.data.filter Char.isDigit
  if ds.isEmpty then none else some (digitsToNat ds)

/-- Matches the literal characters of l at the head of cs, returning the
remainder on success. -/
def dropLit : List Char → List Char → Option (List Char)
  | [], cs => some cs
  | _ :: _, [] => none
  | l :: ls, c :: cs => if c = l then dropLit ls cs else none

/-- Greedy match of the decimal-number pattern (one or more digits, a
period, one or more digits) at the head of cs, returning the integer and
fraction digit runs. -/
def matchDecimalAt (cs : List Char) : Option (List Char × List Char) :=
  match cs.span Char.isDigit with
  | (d1, rest) =>
    if d1.isEmpty then none
    else
      match rest with
      | [] => none
      | c :: rest2 =>
        if c = '.' then
          match rest2.span Char.isDigit with
          | (d2, _) => if d2.isEmpty then none else some (d1, d2)
        else none

/-- Leftmost match of the decimal-number pattern, the first element
found by re.findall. -/
def scanDecimal : List Char → Option (List Char × List Char)
  | [] => none
  | c :: cs =>
    match matchDecimalAt (c :: cs) with
    | some p => some p
    | none => scanDecimal cs

def decimalToRat (d : List Char × List Char) : ℚ :=
  (digitsToNat d.1 : ℚ) + (digitsToNat d.2 : ℚ) / ((10 : ℚ) ^ d.2.length)

/-- float() of the first decimal-number match in s, none with no match. -/
def parseRatingScore (s : String) : Option ℚ :=
  (scanDecimal s.data).map decimalToRat

/-- Match of the pattern: literal Scored, one or more whitespace
characters, then the captured decimal number, at the head of cs. -/
def matchScoredAt (cs : List Char) : Option (List Char × List Char) :=
  match dropLit "Scored".data cs with
  | none => none
  | some rest =>
    match rest.span Char.isWhitespace with
    | (ws, rest2) => if ws.isEmpty then none else matchDecimalAt rest2

def searchScored : List Char → Option (List Char × List Char)
  | [] => none
  | c :: cs =>
    match matchScoredAt (c :: cs) with
    | some p => some p
    | none => searchScored cs

/-- re.search for Scored followed by a captured decimal number, as used
on the location score. -/
def parseLocationScore (s : String) : Option ℚ :=
  (searchScored s.data).map decimalToRat

/-- The Python in-operator on strings: needle occurs as a contiguous
substring of the haystack. -/
def containsSubAux (needle : List Char) : List Char → Bool
  | [] => needle.isEmpty
  | c :: cs => (dropLit needle (c :: cs)).isSome || containsSubAux needle cs

def containsSub (hay needle : String) : Bool :=
  containsSubAux needle.data hay.data

structure CardEnv where
  titleText : Option String
  starLabel : Option String
  reviewScoreText : Option String
  locScoreLabel : Option String
  reviewAmountText : Option String
  bedInfoText : Option String
  priceText : Option String
  breakfastVisible : Option Bool
  freeCancelVisible : Option Bool
  noPrepayVisible : Option Bool
  cardText : Option String
  sustainVisible : Option Bool
  distanceText : Option String

structure HotelRecord where
  hotel_name : String
  star_rating : Option ℤ
  rating_score : Option ℚ
  location_score : Option ℚ
  review_amount : Option ℕ
  bed_info : String
  price : String
  breakfast_included : Bool
  free_cancellation : Bool
  no_prepayment_needed : Bool
  centrally_located : Bool
  sustainability_certification : Bool
  distance_from_downtown : String
deriving DecidableEq

/-- One card's record, each field inside its own failure boundary: a
failed lookup (none) degrades that field alone to its fallback value,
exactly as each try/except block of the source does. -/
def extractCard (c : CardEnv) : HotelRecord where
  hotel_name :=
    match c.titleText with
    | some t => t.trim
    | none => "N/A"
  star_rating :=
    match c.starLabel with
    | some s => if s.isEmpty then none else parseStarRating s
    | none => none
  rating_score := c.reviewScoreText.bind parseRatingScore
  location_score := c.locScoreLabel.bind parseLocationScore
  review_amount := c.reviewAmountText.bind parseReviewAmount
  bed_info :=
    match c.bedInfoText with
    | some t => t.trim
    | none => "N/A"
  price :=
    match c.priceText with
    | some t => t.trim
    | none => "N/A"
  breakfast_included := c.breakfastVisible.getD false
  free_cancellation := c.freeCancelVisible.getD false
  no_prepayment_needed := c.noPrepayVisible.getD false
  centrally_located :=
    match c.cardText with
    | some t => containsSub t.toLower "centrally"
        || containsSub t.toLower "subway access"
    | none => false
  sustainability_certification := c.sustainVisible.getD false
  distance_from_downtown :=
    match c.distanceText with
    | some t => t.trim
    | none => ""

def extract_hotel_data (cards : List CardEnv) : List HotelRecord :=
  (cards.take 100).map extractCard

/-- A card on which every field lookup fails. -/
def failedCard : CardEnv :=
  ⟨none, none, none, none, none, none, none, none, none, none, none,
    none, none⟩

/-- The record the source builds for a card on which every field lookup
fails: note the distance field degrades to the empty string, not to
N/A (line 239 of the source). -/
def sentinelRecord : HotelRecord :=
  ⟨"N/A", none, none, none, none, "N/A", "N/A", false, false, false,
    false, false, ""⟩

/-! ## Row schema (booking_scraper.py lines 240-255 and 281-283)

The source builds each record as a dict with a fixed insertion order of
13 keys, then adds the checkin and checkout strings (lines 281-283)
before the batch reaches the sink; pandas derives the CSV columns from
that key order. A row is modelled as an ordered association list. -/

inductive Cell where
  | ofStr : String → Cell
  | ofInt : Option ℤ → Cell
  | ofRat : Option ℚ → Cell
  | ofNat : Option ℕ → Cell
  | ofBool : Bool → Cell
deriving DecidableEq

def toRow (r : HotelRecord) (ci co : String) : List (String × Cell) :=
  [("hotel_name", .ofStr r.hotel_name),
   ("star_rating", .ofInt r.star_rating),
   ("rating_score", .ofRat r.rating_score),
   ("location_score", .ofRat r.location_score),
   ("review_amount", .ofNat r.review_amount),
   ("bed_info", .ofStr r.bed_info),
   ("price", .ofStr r.price),
   ("breakfast_included", .ofBool r.breakfast_included),
   ("free_cancellation", .ofBool r.free_cancellation),
   ("no_prepayment_needed", .ofBool r.no_prepayment_needed),
   ("centrally_located", .ofBool r.centrally_located),
   ("sustainability_certification", .ofBool r.sustainability_certification),
   ("distance_from_downtown", .ofStr r.distance_from_downtown),
   ("checkin", .ofStr ci),
   ("checkout", .ofStr co)]

def recordSchema : List String :=
  ["hotel_name", "star_rating", "rating_score", "location_score",
   "review_amount", "bed_info", "price", "breakfast_included",
   "free_cancellation", "no_prepayment_needed", "centrally_located",
   "sustainability_certification", "distance_from_downtown",
   "checkin", "checkout"]

/-- The rows one task delivers to the sink: every extracted record
stamped with the task's checkin and checkout strings. -/
def scrape_task_rows (cards : List CardEnv) (ci co : String) :
    List (List (String × Cell)) :=
  (extract_hotel_data cards).map (fun r => toRow r ci co)

/-! ## Result Sink: write_to_csv (booking_scraper.py lines 302-309) and
run-start cleanup (lines 324-328)

A destination file is modelled by its header-line count and its data
rows (of an abstract row type); a missing file is none. write_to_csv is
the body of the lock-protected branch of the source: a missing file is
created with one header plus the batch rows, an existing file gets the
batch rows appended with no header. -/

structure CsvFile (α : Type) where
  headerLines : ℕ
  rows : List α
deriving DecidableEq

def write_to_csv {α : Type} (data : List α) (file : Option (CsvFile α)) :
    CsvFile α :=
  match file with
  | none => ⟨1, data⟩
  | some f => ⟨f.headerLines, f.rows ++ data⟩

/-- The run-start cleanup of scrape_all_dates_sync: if a file of the
run's date-stamped name exists it is removed. -/
def run_start_cleanup {α : Type} (file : Option (CsvFile α)) :
    Option (CsvFile α) :=
  match file with
  | some _ => none
  | none => none

def appendAll {α : Type} (batches : List (List α))
    (file : Option (CsvFile α)) : Option (CsvFile α) :=
  batches.foldl (fun st b => some (write_to_csv b st)) file

/-! ## Worker Pool Dispatcher: scrape_all_dates_sync and worker
(booking_scraper.py lines 313-336) and main (lines 338-343)

get_dates_opt adds the None-default handling of get_dates (lines
13-17): a missing start date becomes today, a missing end date becomes
the start plus 30 days. scrape_all_dates_sync takes the ttt parameter
exactly as the source does (the source never reads it), builds the
date-stamped destination name, and maps the worker over every task;
pool.map blocks until every worker returns, and a worker returns only
when its retry loop accepts, so the whole call is none (never returns)
as soon as one task never reaches acceptance. The result records the
returned value (the csv file name, line 336), the printed total (line
334-335) and the number of tasks submitted. -/

def get_dates_opt (today : ℤ) (sd ed : Option ℤ) (los : ℕ) :
    List (ℤ × ℤ) :=
  let s := sd.getD today
  let e := ed.getD (s + 30)
  get_dates s e los

def csvName (runDate : String) : String :=
  "booking_com_" ++ runDate ++ ".csv"

structure RunResult where
  ret : String
  reportedTotal : ℕ
  taskCount : ℕ
deriving DecidableEq

def poolMap {α β : Type} (f : α → Option β) : List α → Option (List β)
  | [] => some []
  | a :: as =>
    match f a, poolMap f as with
    | some b, some bs => some (b :: bs)
    | _, _ => none

def scrape_all_dates_sync {α : Type} (ttt los : ℕ) (today : ℤ)
    (sd ed : Option ℤ) (runDate : String)
    (attempts : ℤ × ℤ → ℕ → List α) (fuel : ℕ) : Option RunResult :=
  let dates := get_dates_opt today sd ed los
  match poolMap
      (fun d => scrape_date_combination_sync_retry (attempts d) fuel)
      dates with
  | none => none
  | some results =>
    some ⟨csvName runDate, (results.map (fun r => r.1.length)).sum,
      dates.length⟩


theorem retryFrom_some_iff {α : Type} (attempts : ℕ → List α)
    (i p fuel : ℕ) (r : List α) (k q : ℕ) :
    retryFrom attempts i p fuel = some (r, k, q) ↔
      (i ≤ k ∧ k < i + fuel ∧ r = attempts k ∧ q = p + 2 * (k - i) ∧
        100 ≤ (attempts k).length ∧
        ∀ j, i ≤ j → j < k → (attempts j).length < 100) := by
  induction fuel generalizing i p with
  | zero => simp [retryFrom]; omega
  | succ n ih =>
    rw [retryFrom]
    by_cases h : 100 ≤ (attempts i).length
    · simp only [h, if_true]
      constructor
      · rintro h2
        have h3 : r = attempts i ∧ k = i ∧ q = p := by
          have := h2
          simp at this
          tauto
        obtain ⟨hr, hk, hq⟩ := h3
        subst hr; subst hk; subst hq
        refine ⟨le_refl _, by omega, rfl, by omega, h, ?_⟩
        intro j hj1 hj2; omega
      · rintro ⟨h1, h2, h3, h4, h5, h6⟩
        have hk : k = i := by
          by_contra hne
          have : i < k := lt_of_le_of_ne h1 (Ne.symm hne)
          exact absurd h (not_le.mpr (h6 i (le_refl i) this))
        subst hk; subst h3
        simp
        omega
    · simp only [h, if_false]
      rw [ih]
      constructor
      · rintro ⟨h1, h2, h3, h4, h5, h6⟩
        refine ⟨by omega, by omega, h3, by omega, h5, ?_⟩
        intro j hj1 hj2
        rcases eq_or_lt_of_le hj1 with heq | hlt
        · subst heq; exact not_le.mp h
        · exact h6 j hlt hj2
      · rintro ⟨h1, h2, h3, h4, h5, h6⟩
        have hik : i < k := by
          rcases eq_or_lt_of_le h1 with heq | hlt
          · subst heq; exact absurd h5 h
          · exact hlt
        refine ⟨by omega, by omega, h3, by omega, h5, ?_⟩
        intro j hj1 hj2
        exact h6 j (by omega) hj2

theorem retryFrom_none_iff {α : Type} (attempts : ℕ → List α) (i p fuel : ℕ) :
    retryFrom attempts i p fuel = none ↔
      ∀ j, i ≤ j → j < i + fuel → (attempts j).length < 100 := by
  induction fuel generalizing i p with
  | zero => simp [retryFrom]; omega
  | succ n ih =>
    rw [retryFrom]
    by_cases h : 100 ≤ (attempts i).length
    · simp only [h, if_true]
      constructor
      · intro h2; cases h2
      · intro h2
        exact absurd h (not_le.mpr (h2 i (le_refl i) (by omega)))
    · simp only [h, if_false]
      rw [ih]
      constructor
      · intro h2 j hj1 hj2
        rcases eq_or_lt_of_le hj1 with heq | hlt
        · subst heq; exact not_le.mp h
        · exact h2 j hlt (by omega)
      · intro h2 j hj1 hj2
        exact h2 j (by omega) (by omega)

/-- C2: for valid (startDate, endDate, LOS) with startDate ≤ endDate and
LOS ≥ 1, get_dates returns exactly (endDate − startDate + 1) × LOS pairs,
each with 1 ≤ checkout − checkin ≤ LOS, ordered by check-in ascending then
stay length ascending; when startDate > endDate it returns the empty list
(and, being a total function, never raises). -/
theorem get_dates_partitioner_spec (s e : ℤ) (los : ℕ) :
    (s ≤ e → (get_dates s e los).length = ((e - s).toNat + 1) * los)
    ∧ (∀ p ∈ get_dates s e los, 1 ≤ p.2 - p.1 ∧ p.2 - p.1 ≤ (los : ℤ))
    ∧ (get_dates s e los).Pairwise taskLt
    ∧ (e < s → get_dates s e los = []) := by
  refine ⟨?_, ?_, ?_, ?_⟩
  · intro h
    simp only [get_dates, List.length_flatMap, Function.comp_def,
      List.length_map, List.length_range, List.map_const,
      List.map_const', List.sum_replicate, smul_eq_mul]
    congr 1
    omega
  · intro p hp
    simp only [get_dates, List.mem_flatMap, List.mem_range, List.mem_map] at hp
    obtain ⟨d, _, j, hj, hpe⟩ := hp
    subst hpe
    dsimp only
    constructor <;> omega
  · simp only [get_dates]
    rw [List.pairwise_flatMap]
    constructor
    · intro d _
      rw [List.pairwise_map]
      refine (List.pairwise_lt_range los).imp ?_
      intro j1 j2 hj
      right
      constructor
      · rfl
      · simp only []
        omega
    · refine (List.pairwise_lt_range _).imp ?_
      intro d1 d2 hd x hx y hy
      simp only [List.mem_map, List.mem_range] at hx hy
      obtain ⟨j1, _, hx⟩ := hx
      obtain ⟨j2, _, hy⟩ := hy
      subst hx; subst hy
      left
      simp only []
      omega
  · intro h
    have : (e + 1 - s).toNat = 0 := by omega
    simp [get_dates, this]

/-- Witness for get_dates_partitioner_spec at concrete inputs. -/
theorem get_dates_partitioner_spec_witness :
    (get_dates 0 1 2).length = (((1 : ℤ) - 0).toNat + 1) * 2
    ∧ get_dates 1 0 5 = [] :=
  ⟨(get_dates_partitioner_spec 0 1 2).1 (by decide),
    (get_dates_partitioner_spec 1 0 5).2.2.2 (by decide)⟩

/-- C1: the retry wrapper accepts an attempt iff it yields at least 100
records: the accepted result is exactly that attempt's record list (a
short attempt contributes no records), every attempt before the accepted
one yielded fewer than 100, 2 seconds are slept per discarded attempt,
and when every attempt yields fewer than 100 records no fuel bound makes
the loop return (unbounded retry). An attempt yielding exactly 100 at
index k is accepted with no further attempt consulted. -/
theorem retry_wrapper_spec {α : Type} (attempts : ℕ → List α) (fuel : ℕ) :
    (∀ (r : List α) (k q : ℕ),
        scrape_date_combination_sync_retry attempts fuel = some (r, k, q) ↔
          (k < fuel ∧ r = attempts k ∧ 100 ≤ (attempts k).length ∧
            q = 2 * k ∧ ∀ j < k, (attempts j).length < 100))
    ∧ ((∀ j, (attempts j).length < 100) →
        scrape_date_combination_sync_retry attempts fuel = none) := by
  constructor
  · intro r k q
    rw [scrape_date_combination_sync_retry, retryFrom_some_iff]
    constructor
    · rintro ⟨_, h2, h3, h4, h5, h6⟩
      exact ⟨by omega, h3, h5, by omega, fun j hj => h6 j (Nat.zero_le j) hj⟩
    · rintro ⟨h1, h2, h3, h4, h5⟩
      exact ⟨Nat.zero_le k, by omega, h2, by omega, h3,
        fun j _ hj => h5 j hj⟩
  · intro h
    rw [scrape_date_combination_sync_retry, retryFrom_none_iff]
    intro j _ _
    exact h j

/-- Witness for retry_wrapper_spec: an attempt stream whose first attempt
yields 99 records (discarded, one 2-second pause) and whose second yields
exactly 100 (accepted); and an all-short stream on which the loop never
returns. -/
theorem retry_wrapper_spec_witness :
    scrape_date_combination_sync_retry
        (fun i => if i = 0 then List.replicate 99 () else List.replicate 100 ())
        5 = some (List.replicate 100 (), 1, 2)
    ∧ scrape_date_combination_sync_retry (fun _ => ([] : List Unit)) 7
        = none := by
  constructor
  · exact ((retry_wrapper_spec
      (fun i => if i = 0 then List.replicate 99 () else List.replicate 100 ())
      5).1 (List.replicate 100 ()) 1 2).mpr (by
        refine ⟨by omega, by simp, by simp, by omega, ?_⟩
        intro j hj
        have hj0 : j = 0 := by omega
        subst hj0
        simp)
  · exact (retry_wrapper_spec (fun _ => ([] : List Unit)) 7).2
      (fun j => by simp)

/-- C3 counterexample: with every round a stalled-click round, budget
maxClicks = 5 is exhausted after only 3 rounds (each such round advances
the clicks counter twice: line 125 and line 140 of the source), refuting
the claim that the loop gives up only after 5 full rounds. -/
theorem load_hotel_cards_one_unit_counterexample :
    (load_hotel_cards (fun _ => stallRound) 120 100 5).1.rounds = 3
    ∧ (load_hotel_cards (fun _ => stallRound) 120 100 5).1.success = false
    ∧ ¬ (load_hotel_cards (fun _ => stallRound) 120 100 5).1.rounds = 5 := by
  decide

/-- C3 amended: every executed pagination round advances the clicks
budget counter by roundCost; that cost is 2 exactly for a round whose
click succeeds without the card count strictly increasing within the
timeout, and 1 for the other non-breaking rounds; the loop stops
unsuccessfully as soon as the counter reaches maxClicks (so with budget
5 it can give up after as few as 3 rounds), stops successfully when the
observed count reaches minCount, and in all cases the final settle
re-count is what the function hands back. -/
theorem load_hotel_cards_budget_amended (envs : ℕ → RoundEnv)
    (fc minCount maxClicks fuel i clicks : ℕ) :
    (clicks < maxClicks →
      loadLoop envs minCount maxClicks (fuel + 1) i clicks =
        (match roundCost (envs i) minCount with
          | none => ⟨i + 1, clicks, true⟩
          | some c => loadLoop envs minCount maxClicks fuel (i + 1) (clicks + c)))
    ∧ (roundCost (envs i) minCount = some 2 ↔
        (envs i).visible = true ∧ ¬ minCount ≤ (envs i).count ∧
          (envs i).clickOk = true ∧ (envs i).increased = false)
    ∧ (roundCost (envs i) minCount = none ↔
        (envs i).visible = true ∧ minCount ≤ (envs i).count)
    ∧ (∀ c, roundCost (envs i) minCount = some c → c = 1 ∨ c = 2)
    ∧ (¬ clicks < maxClicks →
        loadLoop envs minCount maxClicks fuel i clicks = ⟨i, clicks, false⟩)
    ∧ (load_hotel_cards envs fc minCount maxClicks).2 = fc := by
  refine ⟨?_, ?_, ?_, ?_, ?_, rfl⟩
  · intro h
    rw [loadLoop, if_pos h]
    rcases hv : (envs i).visible with _ | _
    · simp [roundCost, hv]
    · by_cases hc : minCount ≤ (envs i).count
      · simp [roundCost, hv, hc]
      · rcases hk : (envs i).clickOk with _ | _
        · simp [roundCost, hv, hc, hk]
        · rcases hi : (envs i).increased with _ | _
          · simp [roundCost, hv, hc, hk, hi]
          · simp [roundCost, hv, hc, hk, hi]
  · rw [roundCost]
    rcases hv : (envs i).visible with _ | _ <;>
      by_cases hc : minCount ≤ (envs i).count <;>
      rcases hk : (envs i).clickOk with _ | _ <;>
      rcases hi : (envs i).increased with _ | _ <;>
      simp [hv, hc, hk, hi]
  · rw [roundCost]
    rcases hv : (envs i).visible with _ | _ <;>
      by_cases hc : minCount ≤ (envs i).count <;>
      rcases hk : (envs i).clickOk with _ | _ <;>
      rcases hi : (envs i).increased with _ | _ <;>
      simp [hv, hc, hk, hi]
  · intro c
    rw [roundCost]
    rcases hv : (envs i).visible with _ | _ <;>
      by_cases hc : minCount ≤ (envs i).count <;>
      rcases hk : (envs i).clickOk with _ | _ <;>
      rcases hi : (envs i).increased with _ | _ <;>
      simp [hv, hc, hk, hi] <;> omega
  · intro h
    cases fuel with
    | zero => rw [loadLoop]
    | succ n => rw [loadLoop, if_neg h]

theorem ensureAux_le (visible : ℕ → Bool) (a r : ℕ) :
    ensureAux visible a r ≤ a + r := by
  induction r generalizing a with
  | zero => simp [ensureAux]
  | succ n ih =>
    rw [ensureAux]
    by_cases h : visible a
    · simp [h]
    · rw [if_neg h]
      have := ih (a + 1)
      omega

theorem ensureAux_all_false (visible : ℕ → Bool)
    (h : ∀ n, visible n = false) (a r : ℕ) :
    ensureAux visible a r = a + r := by
  induction r generalizing a with
  | zero => simp [ensureAux]
  | succ n ih =>
    rw [ensureAux, h a]
    rw [if_neg (by simp)]
    rw [ih (a + 1)]
    omega

theorem retryFromE_ok_short {α ε : Type} (attempts : ℕ → Except ε (List α))
    (i fuel : ℕ)
    (h : ∀ j, i ≤ j → ∃ l, attempts j = Except.ok l ∧ l.length < 100) :
    retryFromE attempts i fuel = none := by
  induction fuel generalizing i with
  | zero => rfl
  | succ n ih =>
    obtain ⟨l, hl, hlen⟩ := h i (le_refl i)
    rw [retryFromE, hl]
    simp only [if_neg (by omega : ¬ 100 ≤ l.length)]
    exact ih (i + 1) (fun j hj => h j (by omega))

theorem retryFromE_error {α ε : Type} (attempts : ℕ → Except ε (List α))
    (i fuel k : ℕ) (err : ε) (hik : i ≤ k) (hkf : k < i + fuel)
    (hk : attempts k = .error err)
    (hshort : ∀ j, i ≤ j → j < k →
      ∃ l, attempts j = Except.ok l ∧ l.length < 100) :
    retryFromE attempts i fuel = some (.error err) := by
  induction fuel generalizing i with
  | zero => omega
  | succ n ih =>
    rcases eq_or_lt_of_le hik with heq | hlt
    · subst heq
      rw [retryFromE, hk]
    · obtain ⟨l, hl, hlen⟩ := hshort i (le_refl i) hlt
      rw [retryFromE, hl]
      simp only [if_neg (by omega : ¬ 100 ≤ l.length)]
      exact ih (i + 1) (by omega) (by omega)
        (fun j hj hjk => hshort j (by omega) hjk)

/-- C7 counterexample: an attempt whose date-selection click raises is
not absorbed: the retry wrapper (which has no exception handler)
terminates at once with that error, so the task is reported failed
rather than retried or folded into the acceptance check. -/
theorem retry_never_fails_counterexample :
    retryFromE
        (fun _ => (Except.error "date-selection click failed"
          : Except String (List Unit))) 0 5
      = some (Except.error "date-selection click failed") := rfl

/-- C7 amended: the bounded next-month sub-retry is total and performs at
most maxAttempts clicks (if the date never becomes visible it stops after
exactly maxAttempts clicks with only a warning); but only low-yield
attempts are absorbed by the retry wrapper: an all-low-yield stream
retries forever, while the first exception raised by an attempt (e.g.
the date-selection click failing after the sub-retry gave up)
propagates uncaught out of the wrapper and the task fails immediately. -/
theorem retry_exception_amended {α ε : Type}
    (attempts : ℕ → Except ε (List α)) (visible : ℕ → Bool)
    (m fuel : ℕ) :
    ensure_date_visible visible m ≤ m
    ∧ ((∀ n, visible n = false) → ensure_date_visible visible m = m)
    ∧ ((∀ j, ∃ l, attempts j = Except.ok l ∧ l.length < 100) →
        retryFromE attempts 0 fuel = none)
    ∧ (∀ k err, k < fuel → attempts k = .error err →
        (∀ j < k, ∃ l, attempts j = Except.ok l ∧ l.length < 100) →
        retryFromE attempts 0 fuel = some (.error err)) := by
  refine ⟨?_, ?_, ?_, ?_⟩
  · have := ensureAux_le visible 0 m
    rw [ensure_date_visible]
    omega
  · intro h
    rw [ensure_date_visible, ensureAux_all_false visible h 0 m]
    omega
  · intro h
    exact retryFromE_ok_short attempts 0 fuel (fun j _ => h j)
  · intro k err hkf hk hshort
    exact retryFromE_error attempts 0 fuel k err (Nat.zero_le k) (by omega)
      hk (fun j _ hjk => hshort j hjk)

/-- Witness for retry_exception_amended at concrete inputs: a date that
never becomes visible exhausts exactly 12 sub-retry clicks; an all-short
attempt stream never returns; a first low-yield attempt followed by a
raising attempt fails the task with that error. -/
theorem retry_exception_amended_witness :
    ensure_date_visible (fun _ => false) 12 = 12
    ∧ retryFromE (fun _ => (Except.ok [] : Except String (List Unit))) 0 9
        = none
    ∧ retryFromE
        (fun i => if i = 0 then Except.ok (List.replicate 5 ())
          else (Except.error "boom" : Except String (List Unit))) 0 3
        = some (Except.error "boom") := by
  refine ⟨?_, ?_, ?_⟩
  · exact (retry_exception_amended (fun _ => (Except.ok [] :
      Except String (List Unit))) (fun _ => false) 12 0).2.1 (fun n => rfl)
  · exact (retry_exception_amended (fun _ => (Except.ok [] :
      Except String (List Unit))) (fun _ => false) 12 9).2.2.1
      (fun j => ⟨[], rfl, by simp⟩)
  · exact (retry_exception_amended
      (fun i => if i = 0 then Except.ok (List.replicate 5 ())
        else (Except.error "boom" : Except String (List Unit)))
      (fun _ => false) 12 3).2.2.2 1 "boom" (by omega) (by simp)
      (by
        intro j hj
        have hj0 : j = 0 := by omega
        subst hj0
        exact ⟨List.replicate 5 (), by simp, by simp⟩)

/-- Witness for load_hotel_cards_budget_amended: one stalled round from a
zeroed counter advances the budget by 2, and a counter already at the
budget stops the loop. -/
theorem load_hotel_cards_budget_amended_witness :
    loadLoop (fun _ => stallRound) 100 5 6 0 0 =
      loadLoop (fun _ => stallRound) 100 5 5 1 2
    ∧ loadLoop (fun _ => stallRound) 100 5 9 0 7 =
      (⟨0, 7, false⟩ : LoadOutcome) := by
  constructor
  · have h := (load_hotel_cards_budget_amended (fun _ => stallRound)
      0 100 5 5 0 0).1 (by decide)
    exact h
  · exact (load_hotel_cards_budget_amended (fun _ => stallRound)
      0 100 5 9 0 7).2.2.2.2.1 (by decide)

/-- C4 counterexample: for a card on which every field lookup fails, the
record is emitted without raising, but the distance_from_downtown field
degrades to the empty string (line 239), not to the N/A sentinel the
claim assigns to display-text fields. -/
theorem extractor_sentinel_counterexample :
    extract_hotel_data [failedCard] = [sentinelRecord]
    ∧ sentinelRecord.distance_from_downtown = ""
    ∧ ¬ sentinelRecord.distance_from_downtown = "N/A" := by
  refine ⟨by decide, rfl, by decide⟩

/-- C4 amended: the extractor produces exactly min(N, 100) records, in
card order (the i-th record is the extraction of the i-th card), and a
card on which every field lookup fails still yields a full record of
fallback values — none for the numeric fields, false for the boolean
flags, N/A for the name, bed and price texts, and the empty string for
the distance text — with no field failure aborting the rest. -/
theorem extract_hotel_data_amended (cards : List CardEnv) :
    (extract_hotel_data cards).length = min cards.length 100
    ∧ (∀ i, i < 100 →
        (extract_hotel_data cards)[i]? = (cards[i]?).map extractCard)
    ∧ extractCard failedCard = sentinelRecord := by
  refine ⟨?_, ?_, by decide⟩
  · simp [extract_hotel_data, Nat.min_comm]
  · intro i hi
    simp [extract_hotel_data, List.getElem?_take, hi]

/-- Witness for extract_hotel_data_amended: the single record extracted
from the all-failing card is the image of that card. -/
theorem extract_hotel_data_amended_witness :
    (extract_hotel_data [failedCard])[0]? =
      (([failedCard] : List CardEnv)[0]?).map extractCard :=
  (extract_hotel_data_amended [failedCard]).2.1 0 (by decide)

/-- C8: review-count text 1,234 reviews parses to the integer 1234 by
stripping every non-digit character, and location-score text Scored 8.3
parses to 8.3 by matching the first decimal number after Scored. -/
theorem numeric_parsing_spec :
    parseReviewAmount "1,234 reviews" = some 1234
    ∧ parseLocationScore "Scored 8.3" = some (83 / 10 : ℚ) := by
  constructor
  · decide
  · have h : searchScored "Scored 8.3".data = some (['8'], ['3']) := by
      decide
    rw [parseLocationScore, h]
    have h8 : ('8'.toNat - 48) = 8 := by decide
    have h3 : ('3'.toNat - 48) = 3 := by decide
    norm_num [Option.map, decimalToRat, digitsToNat, List.foldl, h8, h3]

/-- C10: every record delivered to the sink, for every card of every
task, carries exactly the 13 extracted hotel fields followed by checkin
and checkout, in that order, so all batches of a run share one column
schema. -/
theorem record_schema_fixed (cards : List CardEnv) (ci co : String) :
    ∀ row ∈ scrape_task_rows cards ci co, row.map Prod.fst = recordSchema := by
  intro row hrow
  simp only [scrape_task_rows, List.mem_map] at hrow
  obtain ⟨r, _, rfl⟩ := hrow
  rfl

/-- Witness for record_schema_fixed on a concrete task and card. -/
theorem record_schema_fixed_witness :
    (toRow (extractCard failedCard) "1 May 2025" "2 May 2025").map Prod.fst
      = recordSchema :=
  record_schema_fixed [failedCard] "1 May 2025" "2 May 2025"
    (toRow (extractCard failedCard) "1 May 2025" "2 May 2025") (by decide)

theorem appendAll_some {α : Type} (batches : List (List α)) (g : CsvFile α) :
    appendAll batches (some g) =
      some ⟨g.headerLines, g.rows ++ batches.flatten⟩ := by
  induction batches generalizing g with
  | nil => simp [appendAll]
  | cons b bs ih =>
    have h1 : appendAll (b :: bs) (some g)
        = appendAll bs (some (write_to_csv b (some g))) := rfl
    have h2 : write_to_csv b (some g) = ⟨g.headerLines, g.rows ++ b⟩ := rfl
    rw [h1, h2, ih]
    simp [List.append_assoc]

/-- C5: an append to a missing destination creates it with exactly one
header and the batch rows in order; every append to an existing
destination appends the batch rows in order and leaves the header-line
count unchanged; the run-start cleanup removes any pre-existing file of
the run's name; hence any nonempty sequence of appends after run start
yields one header and the batches' rows concatenated in order. -/
theorem result_sink_spec {α : Type} (b0 : List α) (g : CsvFile α)
    (batches : List (List α)) (file : Option (CsvFile α)) :
    write_to_csv b0 none = ⟨1, b0⟩
    ∧ write_to_csv b0 (some g) = ⟨g.headerLines, g.rows ++ b0⟩
    ∧ run_start_cleanup file = none
    ∧ (batches ≠ [] →
        appendAll batches (run_start_cleanup file)
          = some ⟨1, batches.flatten⟩) := by
  refine ⟨rfl, rfl, ?_, ?_⟩
  · cases file <;> rfl
  · intro hne
    have hclean : run_start_cleanup (α := α) file = none := by
      cases file <;> rfl
    rw [hclean]
    cases batches with
    | nil => exact absurd rfl hne
    | cons b bs =>
      have h1 : appendAll (b :: bs) (none : Option (CsvFile α))
          = appendAll bs (some (write_to_csv b none)) := rfl
      have h2 : write_to_csv b (none : Option (CsvFile α)) = ⟨1, b⟩ := rfl
      rw [h1, h2, appendAll_some]
      simp

/-- Witness for result_sink_spec: two appends after run start over a
stale same-day file give one header and the rows of both batches in
order. -/
theorem result_sink_spec_witness :
    appendAll [[1], [2, 3]] (run_start_cleanup (some ⟨1, [9]⟩))
      = some ⟨1, ([[1], [2, 3]] : List (List ℕ)).flatten⟩ :=
  (result_sink_spec [] ⟨1, [9]⟩ [[1], [2, 3]]
    (some ⟨1, [9]⟩)).2.2.2 (by decide)

theorem poolMap_eq_none_iff {α β : Type} (f : α → Option β) (l : List α) :
    poolMap f l = none ↔ ∃ a ∈ l, f a = none := by
  induction l with
  | nil => simp [poolMap]
  | cons a as ih =>
    rw [poolMap]
    cases hfa : f a with
    | none => simp [hfa]
    | some b =>
      cases hpm : poolMap f as with
      | none =>
        constructor
        · intro _
          obtain ⟨x, hx, hfx⟩ := ih.mp hpm
          exact ⟨x, List.mem_cons_of_mem a hx, hfx⟩
        · intro _
          rfl
      | some bs =>
        constructor
        · intro hcontra
          exact Option.noConfusion hcontra
        · rintro ⟨x, hx, hfx⟩
          rcases List.mem_cons.mp hx with heq | hmem
          · subst heq
            rw [hfa] at hfx
            exact Option.noConfusion hfx
          · have h2 := ih.mpr ⟨x, hmem, hfx⟩
            rw [hpm] at h2
            exact Option.noConfusion h2

theorem poolMap_eq_map {α β : Type} (f : α → Option β) (g : α → β)
    (l : List α) (h : ∀ a ∈ l, f a = some (g a)) :
    poolMap f l = some (l.map g) := by
  induction l with
  | nil => rfl
  | cons a as ih =>
    rw [poolMap, h a (by simp), ih (fun x hx => h x (by simp [hx]))]
    rfl

/-- C6 counterexample: a one-task run whose only attempt is accepted
with 100 records: the dispatcher prints the aggregate 100 but the value
scrape_all_dates_sync returns is the csv file name (line 336), not the
sum of accepted-record counts. -/
theorem dispatcher_returns_filename_counterexample :
    scrape_all_dates_sync 1 1 0 (some 0) (some 0) "20240101"
        (fun _ _ => List.replicate 100 ()) 1
      = some ⟨"booking_com_20240101.csv", 100, 1⟩
    ∧ "booking_com_20240101.csv" ≠ toString (100 : ℕ) := by
  exact ⟨by decide, by decide⟩

/-- C6 amended: every task produced by the partitioner is submitted; the
call returns none (never completes) precisely when some task's executor
never reaches acceptance within the fuel; and when every task has an
accepting attempt the call completes, prints as its aggregate the sum of
the accepted-record counts over all tasks, and returns the date-stamped
csv file name. -/
theorem scrape_all_dates_amended {α : Type} (ttt los : ℕ) (today : ℤ)
    (sd ed : Option ℤ) (runDate : String)
    (attempts : ℤ × ℤ → ℕ → List α) (fuel : ℕ) (K : ℤ × ℤ → ℕ) :
    (scrape_all_dates_sync ttt los today sd ed runDate attempts fuel = none
      ↔ ∃ d ∈ get_dates_opt today sd ed los,
          scrape_date_combination_sync_retry (attempts d) fuel = none)
    ∧ ((∀ d ∈ get_dates_opt today sd ed los,
          K d < fuel ∧ 100 ≤ (attempts d (K d)).length ∧
            ∀ j < K d, (attempts d j).length < 100) →
        scrape_all_dates_sync ttt los today sd ed runDate attempts fuel
          = some ⟨csvName runDate,
              ((get_dates_opt today sd ed los).map
                (fun d => (attempts d (K d)).length)).sum,
              (get_dates_opt today sd ed los).length⟩) := by
  constructor
  · simp only [scrape_all_dates_sync]
    cases hpm : poolMap
        (fun d => scrape_date_combination_sync_retry (attempts d) fuel)
        (get_dates_opt today sd ed los) with
    | none =>
      constructor
      · intro _
        exact (poolMap_eq_none_iff _ _).mp hpm
      · intro _
        rfl
    | some results =>
      constructor
      · intro hcontra
        exact Option.noConfusion hcontra
      · intro hex
        have h2 := (poolMap_eq_none_iff _ _).mpr hex
        rw [hpm] at h2
        exact Option.noConfusion h2
  · intro h
    have hmap : poolMap
        (fun d => scrape_date_combination_sync_retry (attempts d) fuel)
        (get_dates_opt today sd ed los)
      = some ((get_dates_opt today sd ed los).map
          (fun d => (attempts d (K d), K d, 2 * K d))) := by
      refine poolMap_eq_map _ _ _ ?_
      intro d hd
      obtain ⟨h1, h2, h3⟩ := h d hd
      rw [scrape_date_combination_sync_retry, retryFrom_some_iff]
      exact ⟨Nat.zero_le _, by omega, rfl, by omega, h2,
        fun j _ hj => h3 j hj⟩
    rw [scrape_all_dates_sync]
    simp only [hmap, List.map_map]
    rfl

/-- Witness for scrape_all_dates_amended: a two-task run, each task
accepted on its first attempt with 100 records, completes with the
printed aggregate 200 and the csv file name as its returned value. -/
theorem scrape_all_dates_amended_witness :
    scrape_all_dates_sync 1 2 0 (some 0) (some 0) "20240101"
        (fun _ _ => List.replicate 100 ()) 1
      = some ⟨csvName "20240101",
          ((get_dates_opt 0 (some 0) (some 0) 2).map
            (fun d => ((fun (_ : ℤ × ℤ) (_ : ℕ) =>
              List.replicate 100 ()) d 0).length)).sum,
          (get_dates_opt 0 (some 0) (some 0) 2).length⟩ :=
  (scrape_all_dates_amended 1 2 0 (some 0) (some 0) "20240101"
    (fun _ _ => List.replicate 100 ()) 1 (fun _ => 0)).2
    (by
      intro d _
      refine ⟨by omega, by simp, ?_⟩
      intro j hj
      omega)

set_option maxRecDepth 4000 in
/-- C9: the ttt run parameter (totalStartDates, 30 in main) is never
read by scrape_all_dates_sync: the run is identical for any two values
of it; and with the default dates of main the sweep covers 31 distinct
check-in days (start through start plus 30 inclusive), not 30. -/
theorem ttt_parameter_ignored {α : Type} (ttt1 ttt2 los : ℕ) (today : ℤ)
    (sd ed : Option ℤ) (runDate : String)
    (attempts : ℤ × ℤ → ℕ → List α) (fuel : ℕ) :
    scrape_all_dates_sync ttt1 los today sd ed runDate attempts fuel
      = scrape_all_dates_sync ttt2 los today sd ed runDate attempts fuel
    ∧ ((get_dates_opt 0 none none 5).map Prod.fst).dedup.length = 31
    ∧ ¬ ((get_dates_opt 0 none none 5).map Prod.fst).dedup.length = 30 := by
  refine ⟨rfl, by decide, by decide⟩

end Booking
